import Mathlib

/-!
Shallow embedding of the CRM canister in
`src/src/dfinity_js_backend/src/index.ts`.

The canister keeps three `StableBTreeMap`s from string identifiers to
records (customers, interactions, purchases) and exposes CRUD and query
operations over them.  We model each map as an association list with
unique keys maintained by `storeInsert`, model the Candid `Result(T, Message)`
values with a `Result` inductive, and model the `generateUUID` function as a
pure function of the 32 SHA-256 digest bytes it formats (the timestamp and
random bytes only feed the hash, so quantifying over arbitrary digests covers
every timestamp/random choice).
-/

namespace CRM

/-- The `Message` Candid variant (index.ts lines 54-58). -/
inductive Message where
  | NotFound : String → Message
  | InvalidPayload : String → Message
  | InternalError : String → Message
deriving DecidableEq

/-- The azle `Result(T, Message)` shape: `Ok` or `Err`. -/
inductive Result (α : Type) where
  | Ok : α → Result α
  | Err : Message → Result α
deriving DecidableEq

/-- The `Interaction` record (index.ts lines 5-12). -/
structure Interaction where
  id : String
  date : String
  interaction_type : String
  description : String
  status : String
  comments : String
deriving DecidableEq

/-- The `Purchase` record (index.ts lines 14-20); `nat` fields become `Nat`. -/
structure Purchase where
  id : String
  date : String
  product : String
  quantity : Nat
  price : Nat
deriving DecidableEq

/-- The `Customer` record (index.ts lines 22-30); `Vec` fields become lists. -/
structure Customer where
  id : String
  name : String
  company : String
  email : String
  phone : String
  interactions : List Interaction
  purchases : List Purchase
deriving DecidableEq

/-- The `CustomerPayload` record (index.ts lines 32-37). -/
structure CustomerPayload where
  name : String
  company : String
  email : String
  phone : String
deriving DecidableEq

/-- The `InteractionPayload` record (index.ts lines 39-45). -/
structure InteractionPayload where
  date : String
  interaction_type : String
  description : String
  status : String
  comments : String
deriving DecidableEq

/-- The `PurchasePayload` record (index.ts lines 47-52). -/
structure PurchasePayload where
  date : String
  product : String
  quantity : Nat
  price : Nat
deriving DecidableEq

/-- A `StableBTreeMap(text, T)` modelled as an association list with
unique keys (uniqueness is maintained by `storeInsert` replacing in place). -/
abbrev Store (α : Type) := List (String × α)

/-- `map.get(id)`: the value stored under `k`, if any. -/
def storeGet {α : Type} : Store α → String → Option α
  | [], _ => none
  | (k', v) :: rest, k => if k' = k then some v else storeGet rest k

/-- `map.insert(id, record)`: upsert, replacing an existing binding in place. -/
def storeInsert {α : Type} : Store α → String → α → Store α
  | [], k, v => [(k, v)]
  | (k', v') :: rest, k, v =>
      if k' = k then (k, v) :: rest else (k', v') :: storeInsert rest k v

/-- `map.remove(id)`: the removed value (if present) and the remaining store. -/
def storeRemove {α : Type} (s : Store α) (k : String) : Option α × Store α :=
  (storeGet s k, s.filter (fun p => !(p.1 == k)))

/-- `map.containsKey(id)`. -/
def storeContainsKey {α : Type} (s : Store α) (k : String) : Bool :=
  (storeGet s k).isSome

/-- `map.values()`. -/
def storeValues {α : Type} (s : Store α) : List α :=
  s.map Prod.snd

/-- The canister state: the three stores (index.ts lines 60-62). -/
structure CRMState where
  customerStorage : Store Customer
  interactionStorage : Store Interaction
  purchaseStorage : Store Purchase

/-- The initial state: all three maps empty. -/
def emptyState : CRMState :=
  { customerStorage := [], interactionStorage := [], purchaseStorage := [] }

/-- A character accepted by the character class `[a-f\d]` of the UUID regex,
with the `i` flag also allowing `A`-`F`. -/
def isHexChar (c : Char) : Bool :=
  c.isDigit || ('a' ≤ c && c ≤ 'f') || ('A' ≤ c && c ≤ 'F')

/-- Consume exactly `n` hex characters from the front of the list;
`none` when a non-hex character (or the end) is hit early. -/
def checkHexRun : Nat → List Char → Option (List Char)
  | 0, cs => some cs
  | _ + 1, [] => none
  | n + 1, c :: cs => if isHexChar c then checkHexRun n cs else none

/-- Consume a literal `-`. -/
def checkDash : List Char → Option (List Char)
  | '-' :: cs => some cs
  | _ => none

/-- `isValidUUID` (index.ts lines 312-315): the anchored regex
`[a-f\d]8-[a-f\d]4-[a-f\d]4-[a-f\d]4-[a-f\d]12` with the case-insensitive
flag, as a matcher that must consume the whole string. -/
def isValidUUID (uuid : String) : Bool :=
  match (((((((((checkHexRun 8 uuid.data).bind checkDash).bind
      (checkHexRun 4)).bind checkDash).bind
      (checkHexRun 4)).bind checkDash).bind
      (checkHexRun 4)).bind checkDash).bind
      (checkHexRun 12)) with
  | some [] => true
  | _ => false

/-- One lowercase hex digit, as produced by JavaScript `toString(16)`
for a digit value below 16. -/
def hexDigit (n : Nat) : Char :=
  if n < 10 then Char.ofNat (48 + n) else Char.ofNat (87 + n)

/-- `b.toString(16).padStart(2, "0")` for a byte `b < 256`: two lowercase
hex characters. -/
def byteToHex (b : Nat) : List Char :=
  [hexDigit (b / 16), hexDigit (b % 16)]

/-- `Array.from(bytes).map(b => b.toString(16).padStart(2, "0")).join("")`. -/
def toHexString (bytes : List Nat) : List Char :=
  (bytes.map byteToHex).flatten

/-- `generateUUID` (index.ts lines 328-337) as a function of the 32-byte
SHA-256 digest `hash` of the timestamp/random-bytes string.  `substr(i, n)`
becomes drop-then-take on the 64-character hex string; the variant byte
`(hashBytes[16] & 0x3f) | 0x80` is modelled arithmetically as
`hash[16] % 64 + 128` (masking to the low 6 bits is `% 64`, and oring `0x80`
into a value below `0x80` adds `128`). -/
def generateUUID (hash : List Nat) : String :=
  let hs := toHexString hash
  let variantByte := hash.getD 16 0 % 64 + 128
  String.mk (((hs.drop 0).take 8) ++
    ('-' :: (((hs.drop 8).take 4) ++
      ('-' :: (('4' :: ((hs.drop 13).take 3)) ++
        ('-' :: ((byteToHex variantByte ++ ((hs.drop 17).take 2)) ++
          ('-' :: ((hs.drop 20).take 12)))))))))

/-- The digests `generateUUID` is actually applied to: SHA-256 produces
exactly 32 bytes, each below 256. -/
abbrev ValidHash (hash : List Nat) : Prop :=
  hash.length = 32 ∧ ∀ b ∈ hash, b < 256

/-- `Object.keys` of a decoded `CustomerPayload` record: the Candid type
fixes exactly these four fields. -/
def customerPayloadKeys (_ : CustomerPayload) : List String :=
  ["name", "company", "email", "phone"]

/-- `Object.keys` of a decoded `InteractionPayload` record. -/
def interactionPayloadKeys (_ : InteractionPayload) : List String :=
  ["date", "interaction_type", "description", "status", "comments"]

/-- `Object.keys` of a decoded `PurchasePayload` record. -/
def purchasePayloadKeys (_ : PurchasePayload) : List String :=
  ["date", "product", "quantity", "price"]

/-- `isValidPayload` (index.ts lines 321-323) on a decoded `CustomerPayload`:
a decoded record is an object, so the check reduces to `Object.keys` being
non-empty. -/
def isValidPayloadCustomer (p : CustomerPayload) : Bool :=
  decide (0 < (customerPayloadKeys p).length)

/-- `isValidPayload` on a decoded `InteractionPayload`. -/
def isValidPayloadInteraction (p : InteractionPayload) : Bool :=
  decide (0 < (interactionPayloadKeys p).length)

/-- `isValidPayload` on a decoded `PurchasePayload`. -/
def isValidPayloadPurchase (p : PurchasePayload) : Bool :=
  decide (0 < (purchasePayloadKeys p).length)

/-- `getCustomers` (index.ts lines 69-71). -/
def getCustomers (st : CRMState) : List Customer :=
  storeValues st.customerStorage

/-- `getCustomer` (index.ts lines 77-86). -/
def getCustomer (st : CRMState) (id : String) : Result Customer :=
  if !isValidUUID id then
    Result.Err (Message.InvalidPayload "Invalid UUID")
  else
    match storeGet st.customerStorage id with
    | none => Result.Err (Message.NotFound ("Customer with id=" ++ id ++ " not found"))
    | some customer => Result.Ok customer

/-- `addCustomer` (index.ts lines 92-99); `hash` is the digest consumed by
the embedded `generateUUID` call. -/
def addCustomer (st : CRMState) (hash : List Nat) (payload : CustomerPayload) :
    Result Customer × CRMState :=
  if !isValidPayloadCustomer payload then
    (Result.Err (Message.InvalidPayload "Invalid payload"), st)
  else
    let customer : Customer :=
      { id := generateUUID hash, name := payload.name, company := payload.company,
        email := payload.email, phone := payload.phone,
        interactions := [], purchases := [] }
    (Result.Ok customer,
      { st with customerStorage := storeInsert st.customerStorage customer.id customer })

/-- `updateCustomer` (index.ts lines 105-111). -/
def updateCustomer (st : CRMState) (payload : Customer) :
    Result Customer × CRMState :=
  if !storeContainsKey st.customerStorage payload.id then
    (Result.Err (Message.NotFound ("Customer with id=" ++ payload.id ++ " not found")), st)
  else
    (Result.Ok payload,
      { st with customerStorage := storeInsert st.customerStorage payload.id payload })

/-- `deleteCustomer` (index.ts lines 117-126). -/
def deleteCustomer (st : CRMState) (id : String) : Result String × CRMState :=
  if !isValidUUID id then
    (Result.Err (Message.InvalidPayload "Invalid UUID"), st)
  else
    match storeRemove st.customerStorage id with
    | (none, _) =>
        (Result.Err (Message.NotFound ("Customer with id=" ++ id ++ " not found")), st)
    | (some deleted, remaining) =>
        (Result.Ok deleted.id, { st with customerStorage := remaining })

/-- `addInteraction` (index.ts lines 133-150): validates the customer id and
payload, builds the interaction with a fresh id, then writes the customer
(with the interaction appended to its embedded list) and the standalone
interaction store. -/
def addInteraction (st : CRMState) (customerId : String) (hash : List Nat)
    (payload : InteractionPayload) : Result String × CRMState :=
  if !isValidUUID customerId then
    (Result.Err (Message.InvalidPayload "Invalid customer UUID"), st)
  else if !isValidPayloadInteraction payload then
    (Result.Err (Message.InvalidPayload "Invalid payload"), st)
  else
    let interaction : Interaction :=
      { id := generateUUID hash, date := payload.date,
        interaction_type := payload.interaction_type,
        description := payload.description, status := payload.status,
        comments := payload.comments }
    match storeGet st.customerStorage customerId with
    | none =>
        (Result.Err (Message.NotFound ("Customer with id=" ++ customerId ++ " not found")), st)
    | some customer =>
        let customer' := { customer with interactions := customer.interactions ++ [interaction] }
        (Result.Ok interaction.id,
          { st with
              customerStorage := storeInsert st.customerStorage customer'.id customer',
              interactionStorage := storeInsert st.interactionStorage interaction.id interaction })

/-- `getCustomerInteractions` (index.ts lines 156-165). -/
def getCustomerInteractions (st : CRMState) (customerId : String) : List Interaction :=
  if !isValidUUID customerId then []
  else
    match storeGet st.customerStorage customerId with
    | none => []
    | some customer => customer.interactions

/-- `addPurchase` (index.ts lines 172-189), mirroring `addInteraction`. -/
def addPurchase (st : CRMState) (customerId : String) (hash : List Nat)
    (payload : PurchasePayload) : Result String × CRMState :=
  if !isValidUUID customerId then
    (Result.Err (Message.InvalidPayload "Invalid customer UUID"), st)
  else if !isValidPayloadPurchase payload then
    (Result.Err (Message.InvalidPayload "Invalid payload"), st)
  else
    let purchase : Purchase :=
      { id := generateUUID hash, date := payload.date, product := payload.product,
        quantity := payload.quantity, price := payload.price }
    match storeGet st.customerStorage customerId with
    | none =>
        (Result.Err (Message.NotFound ("Customer with id=" ++ customerId ++ " not found")), st)
    | some customer =>
        let customer' := { customer with purchases := customer.purchases ++ [purchase] }
        (Result.Ok purchase.id,
          { st with
              customerStorage := storeInsert st.customerStorage customer'.id customer',
              purchaseStorage := storeInsert st.purchaseStorage purchase.id purchase })

/-- `getCustomerPurchases` (index.ts lines 195-204). -/
def getCustomerPurchases (st : CRMState) (customerId : String) : List Purchase :=
  if !isValidUUID customerId then []
  else
    match storeGet st.customerStorage customerId with
    | none => []
    | some customer => customer.purchases

/-- `getPurchase` (index.ts lines 210-219). -/
def getPurchase (st : CRMState) (id : String) : Result Purchase :=
  if !isValidUUID id then
    Result.Err (Message.InvalidPayload "Invalid UUID")
  else
    match storeGet st.purchaseStorage id with
    | none => Result.Err (Message.NotFound ("Purchase with id=" ++ id ++ " not found"))
    | some purchase => Result.Ok purchase

/-- `getInteraction` (index.ts lines 225-234). -/
def getInteraction (st : CRMState) (id : String) : Result Interaction :=
  if !isValidUUID id then
    Result.Err (Message.InvalidPayload "Invalid UUID")
  else
    match storeGet st.interactionStorage id with
    | none => Result.Err (Message.NotFound ("Interaction with id=" ++ id ++ " not found"))
    | some interaction => Result.Ok interaction

/-- `updateInteraction` (index.ts lines 240-246): no id-format pre-check. -/
def updateInteraction (st : CRMState) (payload : Interaction) :
    Result Interaction × CRMState :=
  if !storeContainsKey st.interactionStorage payload.id then
    (Result.Err (Message.NotFound ("Interaction with id=" ++ payload.id ++ " not found")), st)
  else
    (Result.Ok payload,
      { st with interactionStorage := storeInsert st.interactionStorage payload.id payload })

/-- `deleteInteraction` (index.ts lines 252-261). -/
def deleteInteraction (st : CRMState) (id : String) : Result String × CRMState :=
  if !isValidUUID id then
    (Result.Err (Message.InvalidPayload "Invalid UUID"), st)
  else
    match storeRemove st.interactionStorage id with
    | (none, _) =>
        (Result.Err (Message.NotFound ("Interaction with id=" ++ id ++ " not found")), st)
    | (some deleted, remaining) =>
        (Result.Ok deleted.id, { st with interactionStorage := remaining })

/-- `updatePurchase` (index.ts lines 267-273): no id-format pre-check. -/
def updatePurchase (st : CRMState) (payload : Purchase) :
    Result Purchase × CRMState :=
  if !storeContainsKey st.purchaseStorage payload.id then
    (Result.Err (Message.NotFound ("Purchase with id=" ++ payload.id ++ " not found")), st)
  else
    (Result.Ok payload,
      { st with purchaseStorage := storeInsert st.purchaseStorage payload.id payload })

/-- `deletePurchase` (index.ts lines 279-288). -/
def deletePurchase (st : CRMState) (id : String) : Result String × CRMState :=
  if !isValidUUID id then
    (Result.Err (Message.InvalidPayload "Invalid UUID"), st)
  else
    match storeRemove st.purchaseStorage id with
    | (none, _) =>
        (Result.Err (Message.NotFound ("Purchase with id=" ++ id ++ " not found")), st)
    | (some deleted, remaining) =>
        (Result.Ok deleted.id, { st with purchaseStorage := remaining })

/-- JavaScript `toLowerCase()` on the ASCII fragment the spec's
case-insensitivity claims range over: `A`-`Z` map to `a`-`z`, every other
character is unchanged. -/
def jsToLower (s : String) : String :=
  String.mk (s.data.map Char.toLower)

/-- `filterByStatus` (index.ts lines 294-296). -/
def filterByStatus (st : CRMState) (status : String) : List Interaction :=
  (storeValues st.interactionStorage).filter
    (fun interaction => jsToLower interaction.status == jsToLower status)

/-- `getPurchasesByDate` (index.ts lines 302-304). -/
def getPurchasesByDate (st : CRMState) (date : String) : List Purchase :=
  (storeValues st.purchaseStorage).filter
    (fun purchase => jsToLower purchase.date == jsToLower date)

/-- Whether a result is a `NotFound` error. -/
def isNotFound {α : Type} : Result α → Bool
  | Result.Err (Message.NotFound _) => true
  | _ => false

/-- States reachable from the empty canister state via the public
state-changing operations; the UUID-consuming steps take genuine SHA-256
digests (32 bytes, each below 256). -/
inductive Reachable : CRMState → Prop where
  | empty : Reachable emptyState
  | addCustomerStep (st : CRMState) (hash : List Nat) (payload : CustomerPayload) :
      Reachable st → ValidHash hash → Reachable (addCustomer st hash payload).2
  | updateCustomerStep (st : CRMState) (payload : Customer) :
      Reachable st → Reachable (updateCustomer st payload).2
  | deleteCustomerStep (st : CRMState) (id : String) :
      Reachable st → Reachable (deleteCustomer st id).2
  | addInteractionStep (st : CRMState) (customerId : String) (hash : List Nat)
      (payload : InteractionPayload) :
      Reachable st → ValidHash hash → Reachable (addInteraction st customerId hash payload).2
  | addPurchaseStep (st : CRMState) (customerId : String) (hash : List Nat)
      (payload : PurchasePayload) :
      Reachable st → ValidHash hash → Reachable (addPurchase st customerId hash payload).2
  | updateInteractionStep (st : CRMState) (payload : Interaction) :
      Reachable st → Reachable (updateInteraction st payload).2
  | updatePurchaseStep (st : CRMState) (payload : Purchase) :
      Reachable st → Reachable (updatePurchase st payload).2
  | deleteInteractionStep (st : CRMState) (id : String) :
      Reachable st → Reachable (deleteInteraction st id).2
  | deletePurchaseStep (st : CRMState) (id : String) :
      Reachable st → Reachable (deletePurchase st id).2

/-- Per-store invariant: every key equals the `id` field of the record
stored under it, and is a format-valid identifier. -/
def StoreInv {α : Type} (idOf : α → String) (s : Store α) : Prop :=
  ∀ p ∈ s, p.1 = idOf p.2 ∧ isValidUUID p.1 = true

/-- State invariant: `StoreInv` for all three stores. -/
def Inv (st : CRMState) : Prop :=
  StoreInv Customer.id st.customerStorage ∧
  StoreInv Interaction.id st.interactionStorage ∧
  StoreInv Purchase.id st.purchaseStorage

/-- Every key in each of the three stores equals the `id` field of the
record stored under it. -/
def KeysMatch (st : CRMState) : Prop :=
  (∀ p ∈ st.customerStorage, p.1 = p.2.id) ∧
  (∀ p ∈ st.interactionStorage, p.1 = p.2.id) ∧
  (∀ p ∈ st.purchaseStorage, p.1 = p.2.id)

/-- A SHA-256-shaped digest used to instantiate theorems. -/
def sampleHash : List Nat := List.range 32

/-- A second digest, distinct from `sampleHash`. -/
def sampleHash2 : List Nat := (List.range 32).map (fun b => b + 100)

/-- The example customer payload from the spec. -/
def samplePayload : CustomerPayload :=
  { name := "Acme", company := "Acme Co", email := "a@acme.com", phone := "555-0100" }

/-- The state after adding one customer to the empty state. -/
def sampleState1 : CRMState := (addCustomer emptyState sampleHash samplePayload).2

/-- The id generated for that customer. -/
def sampleCustomerId : String := generateUUID sampleHash

/-- An updated customer record carrying `sampleCustomerId`. -/
def sampleCustomer2 : Customer :=
  { id := sampleCustomerId, name := "New", company := "NewCo", email := "n@x.com",
    phone := "555-0199", interactions := [], purchases := [] }

/-- A concrete interaction payload. -/
def sampleIPayload : InteractionPayload :=
  { date := "2024-01-01", interaction_type := "call", description := "d",
    status := "Closed", comments := "c" }

/-- A concrete standalone interaction. -/
def sampleInteraction : Interaction :=
  { id := "k1", date := "2024-01-01", interaction_type := "call",
    description := "d", status := "Closed", comments := "c" }

/-- A state holding one standalone interaction. -/
def sampleIState : CRMState :=
  { emptyState with interactionStorage := [("k1", sampleInteraction)] }

/-! ### Store lemmas -/

lemma storeGet_storeInsert_self {α : Type} (s : Store α) (k : String) (v : α) :
    storeGet (storeInsert s k v) k = some v := by
  induction s with
  | nil => simp [storeInsert, storeGet]
  | cons hd tl ih =>
      obtain ⟨k', v'⟩ := hd
      by_cases hk : k' = k
      · simp [storeInsert, hk, storeGet]
      · simp [storeInsert, hk, storeGet, ih]

lemma storeGet_mem {α : Type} {s : Store α} {k : String} {v : α}
    (h : storeGet s k = some v) : (k, v) ∈ s := by
  induction s with
  | nil => simp [storeGet] at h
  | cons hd tl ih =>
      obtain ⟨k', v'⟩ := hd
      by_cases hk : k' = k
      · subst hk
        simp [storeGet] at h
        subst h
        exact List.mem_cons_self _ _
      · simp [storeGet, hk] at h
        exact List.mem_cons_of_mem _ (ih h)

lemma mem_storeInsert {α : Type} {s : Store α} {k : String} {v : α}
    {p : String × α} (h : p ∈ storeInsert s k v) : p = (k, v) ∨ p ∈ s := by
  induction s with
  | nil => simpa [storeInsert] using h
  | cons hd tl ih =>
      obtain ⟨k', v'⟩ := hd
      by_cases hk : k' = k
      · simp [storeInsert, hk] at h
        rcases h with h | h
        · exact Or.inl h
        · exact Or.inr (List.mem_cons_of_mem _ h)
      · simp [storeInsert, hk] at h
        rcases h with h | h
        · exact Or.inr (by simp [h])
        · rcases ih h with h' | h'
          · exact Or.inl h'
          · exact Or.inr (List.mem_cons_of_mem _ h')

lemma storeGet_filter_self {α : Type} (s : Store α) (k : String) :
    storeGet (s.filter (fun p => !(p.1 == k))) k = none := by
  induction s with
  | nil => simp [storeGet]
  | cons hd tl ih =>
      obtain ⟨k', v'⟩ := hd
      rw [List.filter_cons]
      by_cases hk : k' = k
      · subst hk
        simpa using ih
      · simpa [hk, storeGet] using ih

lemma storeContainsKey_exists {α : Type} {s : Store α} {k : String}
    (h : storeContainsKey s k = true) : ∃ v, storeGet s k = some v := by
  unfold storeContainsKey at h
  exact Option.isSome_iff_exists.mp h

/-! ### Invariant lemmas -/

lemma storeInv_insert {α : Type} {idOf : α → String} {s : Store α} {k : String} {v : α}
    (hs : StoreInv idOf s) (hk : idOf v = k) (hv : isValidUUID k = true) :
    StoreInv idOf (storeInsert s k v) := by
  intro p hp
  rcases mem_storeInsert hp with rfl | hp
  · exact ⟨hk.symm, hv⟩
  · exact hs p hp

lemma storeInv_filter {α : Type} {idOf : α → String} {s : Store α}
    (hs : StoreInv idOf s) (f : String × α → Bool) :
    StoreInv idOf (s.filter f) :=
  fun p hp => hs p (List.mem_of_mem_filter hp)

lemma storeInv_get {α : Type} {idOf : α → String} {s : Store α} {k : String} {v : α}
    (hs : StoreInv idOf s) (h : storeGet s k = some v) :
    idOf v = k ∧ isValidUUID k = true := by
  have hm := hs (k, v) (storeGet_mem h)
  exact ⟨hm.1.symm, hm.2⟩

/-! ### Hex string and UUID lemmas -/

lemma hexDigit_isHexChar {n : Nat} (h : n < 16) : isHexChar (hexDigit n) = true := by
  interval_cases n <;> decide

lemma byteToHex_hex {b : Nat} (h : b < 256) :
    ∀ c ∈ byteToHex b, isHexChar c = true := by
  intro c hc
  have h1 : b / 16 < 16 := by omega
  have h2 : b % 16 < 16 := by omega
  simp only [byteToHex, List.mem_cons, List.not_mem_nil, or_false] at hc
  rcases hc with rfl | rfl
  · exact hexDigit_isHexChar h1
  · exact hexDigit_isHexChar h2

lemma toHexString_length (bytes : List Nat) :
    (toHexString bytes).length = 2 * bytes.length := by
  induction bytes with
  | nil => rfl
  | cons b tl ih =>
      simp [toHexString, byteToHex] at ih ⊢
      omega

lemma toHexString_hex {bytes : List Nat} (hb : ∀ b ∈ bytes, b < 256) :
    ∀ c ∈ toHexString bytes, isHexChar c = true := by
  intro c hc
  unfold toHexString at hc
  rw [List.mem_flatten] at hc
  obtain ⟨l, hl, hcl⟩ := hc
  rw [List.mem_map] at hl
  obtain ⟨b, hbmem, rfl⟩ := hl
  exact byteToHex_hex (hb b hbmem) c hcl

lemma checkHexRun_append (cs rest : List Char)
    (h : ∀ c ∈ cs, isHexChar c = true) :
    checkHexRun cs.length (cs ++ rest) = some rest := by
  induction cs with
  | nil => rfl
  | cons c tl ih =>
      have hc : isHexChar c = true := h c (List.mem_cons_self _ _)
      simp only [List.length_cons, List.cons_append, checkHexRun, hc, if_true]
      exact ih (fun x hx => h x (List.mem_cons_of_mem _ hx))

lemma checkDash_cons (R : List Char) : checkDash ('-' :: R) = some R := rfl

lemma isValidUUID_of_groups (g1 g2 g3 g4 g5 : List Char)
    (h1 : g1.length = 8) (h2 : g2.length = 4) (h3 : g3.length = 4)
    (h4 : g4.length = 4) (h5 : g5.length = 12)
    (x1 : ∀ c ∈ g1, isHexChar c = true) (x2 : ∀ c ∈ g2, isHexChar c = true)
    (x3 : ∀ c ∈ g3, isHexChar c = true) (x4 : ∀ c ∈ g4, isHexChar c = true)
    (x5 : ∀ c ∈ g5, isHexChar c = true) :
    isValidUUID (String.mk (g1 ++ '-' :: (g2 ++ '-' :: (g3 ++ '-' :: (g4 ++ '-' :: g5))))) = true := by
  have s1 : checkHexRun 8 (g1 ++ '-' :: (g2 ++ '-' :: (g3 ++ '-' :: (g4 ++ '-' :: g5)))) =
      some ('-' :: (g2 ++ '-' :: (g3 ++ '-' :: (g4 ++ '-' :: g5)))) := by
    rw [← h1]; exact checkHexRun_append _ _ x1
  have s2 : checkHexRun 4 (g2 ++ '-' :: (g3 ++ '-' :: (g4 ++ '-' :: g5))) =
      some ('-' :: (g3 ++ '-' :: (g4 ++ '-' :: g5))) := by
    rw [← h2]; exact checkHexRun_append _ _ x2
  have s3 : checkHexRun 4 (g3 ++ '-' :: (g4 ++ '-' :: g5)) =
      some ('-' :: (g4 ++ '-' :: g5)) := by
    rw [← h3]; exact checkHexRun_append _ _ x3
  have s4 : checkHexRun 4 (g4 ++ '-' :: g5) = some ('-' :: g5) := by
    rw [← h4]; exact checkHexRun_append _ _ x4
  have s5 : checkHexRun 12 g5 = some [] := by
    have h := checkHexRun_append g5 [] x5
    rwa [List.append_nil, h5] at h
  unfold isValidUUID
  simp only [String.data]
  rw [s1]
  simp only [Option.some_bind, checkDash_cons]
  rw [s2]
  simp only [Option.some_bind, checkDash_cons]
  rw [s3]
  simp only [Option.some_bind, checkDash_cons]
  rw [s4]
  simp only [Option.some_bind, checkDash_cons]
  rw [s5]

lemma generateUUID_pieces (hash : List Nat) (h : ValidHash hash) :
    ∃ g1 g2 g3 g4 g5 : List Char,
      (generateUUID hash).data = g1 ++ '-' :: (g2 ++ '-' :: (g3 ++ '-' :: (g4 ++ '-' :: g5))) ∧
      g1.length = 8 ∧ g2.length = 4 ∧ g3.length = 4 ∧ g4.length = 4 ∧ g5.length = 12 ∧
      (∀ c ∈ g1, isHexChar c = true) ∧ (∀ c ∈ g2, isHexChar c = true) ∧
      (∀ c ∈ g3, isHexChar c = true) ∧ (∀ c ∈ g4, isHexChar c = true) ∧
      (∀ c ∈ g5, isHexChar c = true) ∧
      g3.head? = some '4' ∧
      (∃ c, g4.head? = some c ∧ (c = '8' ∨ c = '9' ∨ c = 'a' ∨ c = 'b')) := by
  obtain ⟨hlen32, hbytes⟩ := h
  have hslen : (toHexString hash).length = 64 := by
    rw [toHexString_length, hlen32]
  have hshex : ∀ c ∈ toHexString hash, isHexChar c = true := toHexString_hex hbytes
  have hvb : hash.getD 16 0 % 64 + 128 < 256 := by omega
  refine ⟨((toHexString hash).drop 0).take 8, ((toHexString hash).drop 8).take 4,
    '4' :: ((toHexString hash).drop 13).take 3,
    byteToHex (hash.getD 16 0 % 64 + 128) ++ ((toHexString hash).drop 17).take 2,
    ((toHexString hash).drop 20).take 12,
    rfl, ?_, ?_, ?_, ?_, ?_, ?_, ?_, ?_, ?_, ?_, rfl, ?_⟩
  · simp only [List.length_take, List.length_drop, hslen]
    omega
  · simp only [List.length_take, List.length_drop, hslen]
    omega
  · simp only [List.length_cons, List.length_take, List.length_drop, hslen]
    omega
  · simp only [List.length_append, List.length_take, List.length_drop, hslen, byteToHex,
      List.length_cons, List.length_nil]
    omega
  · simp only [List.length_take, List.length_drop, hslen]
    omega
  · exact fun c hc => hshex c (List.drop_subset _ _ (List.take_subset _ _ hc))
  · exact fun c hc => hshex c (List.drop_subset _ _ (List.take_subset _ _ hc))
  · intro c hc
    rcases List.mem_cons.mp hc with rfl | hc
    · decide
    · exact hshex c (List.drop_subset _ _ (List.take_subset _ _ hc))
  · intro c hc
    rcases List.mem_append.mp hc with hc | hc
    · exact byteToHex_hex hvb c hc
    · exact hshex c (List.drop_subset _ _ (List.take_subset _ _ hc))
  · exact fun c hc => hshex c (List.drop_subset _ _ (List.take_subset _ _ hc))
  · refine ⟨hexDigit ((hash.getD 16 0 % 64 + 128) / 16), rfl, ?_⟩
    have hdiv : (hash.getD 16 0 % 64 + 128) / 16 = hash.getD 16 0 % 64 / 16 + 8 := by
      omega
    have hq : hash.getD 16 0 % 64 / 16 = 0 ∨ hash.getD 16 0 % 64 / 16 = 1 ∨
        hash.getD 16 0 % 64 / 16 = 2 ∨ hash.getD 16 0 % 64 / 16 = 3 := by
      omega
    rw [hdiv]
    rcases hq with hq | hq | hq | hq <;> rw [hq] <;> decide

lemma generateUUID_valid {hash : List Nat} (h : ValidHash hash) :
    isValidUUID (generateUUID hash) = true := by
  obtain ⟨g1, g2, g3, g4, g5, hdata, l1, l2, l3, l4, l5, x1, x2, x3, x4, x5, -, -⟩ :=
    generateUUID_pieces hash h
  have hok := isValidUUID_of_groups g1 g2 g3 g4 g5 l1 l2 l3 l4 l5 x1 x2 x3 x4 x5
  have hmk : String.mk (g1 ++ '-' :: (g2 ++ '-' :: (g3 ++ '-' :: (g4 ++ '-' :: g5)))) =
      generateUUID hash := by
    rw [← hdata]
  rwa [hmk] at hok

lemma generateUUID_length {hash : List Nat} (h : ValidHash hash) :
    (generateUUID hash).length = 36 := by
  obtain ⟨g1, g2, g3, g4, g5, hdata, l1, l2, l3, l4, l5, -, -, -, -, -, -, -⟩ :=
    generateUUID_pieces hash h
  have hlen : (generateUUID hash).data.length = 36 := by
    rw [hdata]
    simp only [List.length_append, List.length_cons, l1, l2, l3, l4, l5]
  show (generateUUID hash).data.length = 36
  exact hlen

lemma isValidPayloadCustomer_true (p : CustomerPayload) :
    isValidPayloadCustomer p = true := rfl

lemma isValidPayloadInteraction_true (p : InteractionPayload) :
    isValidPayloadInteraction p = true := rfl

lemma isValidPayloadPurchase_true (p : PurchasePayload) :
    isValidPayloadPurchase p = true := rfl

/-! ### The reachable-state invariant -/

lemma reachable_inv {st : CRMState} (h : Reachable st) : Inv st := by
  induction h with
  | empty =>
      refine ⟨?_, ?_, ?_⟩ <;> intro p hp <;> simp [emptyState] at hp
  | addCustomerStep st hash payload _ hhash ih =>
      obtain ⟨ih1, ih2, ih3⟩ := ih
      have hstate : (addCustomer st hash payload).2 =
          { st with customerStorage := (storeInsert st.customerStorage (generateUUID hash)
              { id := generateUUID hash, name := payload.name, company := payload.company,
                email := payload.email, phone := payload.phone,
                interactions := [], purchases := [] }) } := rfl
      rw [hstate]
      exact ⟨storeInv_insert ih1 rfl (generateUUID_valid hhash), ih2, ih3⟩
  | updateCustomerStep st payload _ ih =>
      obtain ⟨ih1, ih2, ih3⟩ := ih
      by_cases hc : storeContainsKey st.customerStorage payload.id = true
      · obtain ⟨v, hget⟩ := storeContainsKey_exists hc
        have hval := (storeInv_get ih1 hget).2
        have hstate : (updateCustomer st payload).2 =
            { st with customerStorage := (storeInsert st.customerStorage payload.id payload) } := by
          simp [updateCustomer, hc]
        rw [hstate]
        exact ⟨storeInv_insert ih1 rfl hval, ih2, ih3⟩
      · have hstate : (updateCustomer st payload).2 = st := by
          simp [updateCustomer, hc]
        rw [hstate]
        exact ⟨ih1, ih2, ih3⟩
  | deleteCustomerStep st id _ ih =>
      obtain ⟨ih1, ih2, ih3⟩ := ih
      by_cases hv : isValidUUID id = true
      · cases hget : storeGet st.customerStorage id with
        | none =>
            have hstate : (deleteCustomer st id).2 = st := by
              simp [deleteCustomer, storeRemove, hv, hget]
            rw [hstate]
            exact ⟨ih1, ih2, ih3⟩
        | some v =>
            have hstate : (deleteCustomer st id).2 =
                { st with customerStorage :=
                    (st.customerStorage.filter (fun p => !(p.1 == id))) } := by
              simp [deleteCustomer, storeRemove, hv, hget]
            rw [hstate]
            exact ⟨storeInv_filter ih1 _, ih2, ih3⟩
      · have hstate : (deleteCustomer st id).2 = st := by
          simp [deleteCustomer, hv]
        rw [hstate]
        exact ⟨ih1, ih2, ih3⟩
  | addInteractionStep st customerId hash payload _ hhash ih =>
      obtain ⟨ih1, ih2, ih3⟩ := ih
      by_cases hv : isValidUUID customerId = true
      · cases hget : storeGet st.customerStorage customerId with
        | none =>
            have hstate : (addInteraction st customerId hash payload).2 = st := by
              simp [addInteraction, hv, hget, isValidPayloadInteraction_true]
            rw [hstate]
            exact ⟨ih1, ih2, ih3⟩
        | some customer =>
            have hcid := storeInv_get ih1 hget
            have hstate : (addInteraction st customerId hash payload).2 =
                { st with
                    customerStorage := (storeInsert st.customerStorage customer.id
                      { customer with interactions := customer.interactions ++
                          [{ id := generateUUID hash, date := payload.date,
                             interaction_type := payload.interaction_type,
                             description := payload.description, status := payload.status,
                             comments := payload.comments }] }),
                    interactionStorage := (storeInsert st.interactionStorage (generateUUID hash)
                      { id := generateUUID hash, date := payload.date,
                        interaction_type := payload.interaction_type,
                        description := payload.description, status := payload.status,
                        comments := payload.comments }) } := by
              simp [addInteraction, hv, hget, isValidPayloadInteraction_true]
            rw [hstate]
            refine ⟨storeInv_insert ih1 rfl ?_,
              storeInv_insert ih2 rfl (generateUUID_valid hhash), ih3⟩
            rw [hcid.1]
            exact hcid.2
      · have hstate : (addInteraction st customerId hash payload).2 = st := by
          simp [addInteraction, hv, isValidPayloadInteraction_true]
        rw [hstate]
        exact ⟨ih1, ih2, ih3⟩
  | addPurchaseStep st customerId hash payload _ hhash ih =>
      obtain ⟨ih1, ih2, ih3⟩ := ih
      by_cases hv : isValidUUID customerId = true
      · cases hget : storeGet st.customerStorage customerId with
        | none =>
            have hstate : (addPurchase st customerId hash payload).2 = st := by
              simp [addPurchase, hv, hget, isValidPayloadPurchase_true]
            rw [hstate]
            exact ⟨ih1, ih2, ih3⟩
        | some customer =>
            have hcid := storeInv_get ih1 hget
            have hstate : (addPurchase st customerId hash payload).2 =
                { st with
                    customerStorage := (storeInsert st.customerStorage customer.id
                      { customer with purchases := customer.purchases ++
                          [{ id := generateUUID hash, date := payload.date,
                             product := payload.product, quantity := payload.quantity,
                             price := payload.price }] }),
                    purchaseStorage := (storeInsert st.purchaseStorage (generateUUID hash)
                      { id := generateUUID hash, date := payload.date,
                        product := payload.product, quantity := payload.quantity,
                        price := payload.price }) } := by
              simp [addPurchase, hv, hget, isValidPayloadPurchase_true]
            rw [hstate]
            refine ⟨storeInv_insert ih1 rfl ?_, ih2,
              storeInv_insert ih3 rfl (generateUUID_valid hhash)⟩
            rw [hcid.1]
            exact hcid.2
      · have hstate : (addPurchase st customerId hash payload).2 = st := by
          simp [addPurchase, hv, isValidPayloadPurchase_true]
        rw [hstate]
        exact ⟨ih1, ih2, ih3⟩
  | updateInteractionStep st payload _ ih =>
      obtain ⟨ih1, ih2, ih3⟩ := ih
      by_cases hc : storeContainsKey st.interactionStorage payload.id = true
      · obtain ⟨v, hget⟩ := storeContainsKey_exists hc
        have hval := (storeInv_get ih2 hget).2
        have hstate : (updateInteraction st payload).2 =
            { st with interactionStorage :=
                (storeInsert st.interactionStorage payload.id payload) } := by
          simp [updateInteraction, hc]
        rw [hstate]
        exact ⟨ih1, storeInv_insert ih2 rfl hval, ih3⟩
      · have hstate : (updateInteraction st payload).2 = st := by
          simp [updateInteraction, hc]
        rw [hstate]
        exact ⟨ih1, ih2, ih3⟩
  | updatePurchaseStep st payload _ ih =>
      obtain ⟨ih1, ih2, ih3⟩ := ih
      by_cases hc : storeContainsKey st.purchaseStorage payload.id = true
      · obtain ⟨v, hget⟩ := storeContainsKey_exists hc
        have hval := (storeInv_get ih3 hget).2
        have hstate : (updatePurchase st payload).2 =
            { st with purchaseStorage :=
                (storeInsert st.purchaseStorage payload.id payload) } := by
          simp [updatePurchase, hc]
        rw [hstate]
        exact ⟨ih1, ih2, storeInv_insert ih3 rfl hval⟩
      · have hstate : (updatePurchase st payload).2 = st := by
          simp [updatePurchase, hc]
        rw [hstate]
        exact ⟨ih1, ih2, ih3⟩
  | deleteInteractionStep st id _ ih =>
      obtain ⟨ih1, ih2, ih3⟩ := ih
      by_cases hv : isValidUUID id = true
      · cases hget : storeGet st.interactionStorage id with
        | none =>
            have hstate : (deleteInteraction st id).2 = st := by
              simp [deleteInteraction, storeRemove, hv, hget]
            rw [hstate]
            exact ⟨ih1, ih2, ih3⟩
        | some v =>
            have hstate : (deleteInteraction st id).2 =
                { st with interactionStorage :=
                    (st.interactionStorage.filter (fun p => !(p.1 == id))) } := by
              simp [deleteInteraction, storeRemove, hv, hget]
            rw [hstate]
            exact ⟨ih1, storeInv_filter ih2 _, ih3⟩
      · have hstate : (deleteInteraction st id).2 = st := by
          simp [deleteInteraction, hv]
        rw [hstate]
        exact ⟨ih1, ih2, ih3⟩
  | deletePurchaseStep st id _ ih =>
      obtain ⟨ih1, ih2, ih3⟩ := ih
      by_cases hv : isValidUUID id = true
      · cases hget : storeGet st.purchaseStorage id with
        | none =>
            have hstate : (deletePurchase st id).2 = st := by
              simp [deletePurchase, storeRemove, hv, hget]
            rw [hstate]
            exact ⟨ih1, ih2, ih3⟩
        | some v =>
            have hstate : (deletePurchase st id).2 =
                { st with purchaseStorage :=
                    (st.purchaseStorage.filter (fun p => !(p.1 == id))) } := by
              simp [deletePurchase, storeRemove, hv, hget]
            rw [hstate]
            exact ⟨ih1, ih2, storeInv_filter ih3 _⟩
      · have hstate : (deletePurchase st id).2 = st := by
          simp [deletePurchase, hv]
        rw [hstate]
        exact ⟨ih1, ih2, ih3⟩

lemma deleteCustomer_absent {st : CRMState} {id : String}
    (hv : isValidUUID id = true) (hn : storeGet st.customerStorage id = none) :
    deleteCustomer st id =
      (Result.Err (Message.NotFound ("Customer with id=" ++ id ++ " not found")), st) := by
  simp [deleteCustomer, storeRemove, hv, hn]

lemma sampleState1_reachable : Reachable sampleState1 :=
  Reachable.addCustomerStep emptyState sampleHash samplePayload Reachable.empty
    (by constructor <;> decide)

/-! ### Claims -/

/-- C1: for every payload and every digest, `addCustomer` succeeds and returns
a `Customer` whose id matches the identifier format and whose `interactions`
and `purchases` are empty, and that customer is stored under its id. -/
theorem claim_C1 (st : CRMState) (hash : List Nat) (payload : CustomerPayload)
    (h : ValidHash hash) :
    ∃ c : Customer,
      (addCustomer st hash payload).1 = Result.Ok c ∧
      isValidUUID c.id = true ∧
      c.interactions = [] ∧
      c.purchases = [] ∧
      storeGet (addCustomer st hash payload).2.customerStorage c.id = some c := by
  refine ⟨({ id := generateUUID hash, name := payload.name, company := payload.company,
             email := payload.email, phone := payload.phone,
             interactions := [], purchases := [] }),
    rfl, generateUUID_valid h, rfl, rfl, ?_⟩
  exact storeGet_storeInsert_self _ _ _

theorem claim_C1_witness :
    ∃ c : Customer,
      (addCustomer emptyState sampleHash samplePayload).1 = Result.Ok c ∧
      isValidUUID c.id = true ∧
      c.interactions = [] ∧
      c.purchases = [] ∧
      storeGet (addCustomer emptyState sampleHash samplePayload).2.customerStorage c.id = some c :=
  claim_C1 emptyState sampleHash samplePayload (by constructor <;> decide)

/-- C2 (amended): for a format-valid id absent from the relevant store, the
three getters return `NotFound`; for a format-invalid id they return
`InvalidPayload` instead of `NotFound`; the two list-by-customer queries
return the empty sequence whenever the customer is absent, malformed ids
included.  All operations are total Lean functions, so none throws. -/
theorem claim_C2 (st : CRMState) (id : String) :
    (isValidUUID id = true → storeGet st.customerStorage id = none →
      getCustomer st id =
        Result.Err (Message.NotFound ("Customer with id=" ++ id ++ " not found"))) ∧
    (isValidUUID id = true → storeGet st.interactionStorage id = none →
      getInteraction st id =
        Result.Err (Message.NotFound ("Interaction with id=" ++ id ++ " not found"))) ∧
    (isValidUUID id = true → storeGet st.purchaseStorage id = none →
      getPurchase st id =
        Result.Err (Message.NotFound ("Purchase with id=" ++ id ++ " not found"))) ∧
    (isValidUUID id = false →
      getCustomer st id = Result.Err (Message.InvalidPayload "Invalid UUID") ∧
      getInteraction st id = Result.Err (Message.InvalidPayload "Invalid UUID") ∧
      getPurchase st id = Result.Err (Message.InvalidPayload "Invalid UUID")) ∧
    (storeGet st.customerStorage id = none →
      getCustomerInteractions st id = [] ∧ getCustomerPurchases st id = []) := by
  refine ⟨?_, ?_, ?_, ?_, ?_⟩
  · intro hv hn
    simp [getCustomer, hv, hn]
  · intro hv hn
    simp [getInteraction, hv, hn]
  · intro hv hn
    simp [getPurchase, hv, hn]
  · intro hv
    exact ⟨by simp [getCustomer, hv], by simp [getInteraction, hv], by simp [getPurchase, hv]⟩
  · intro hn
    cases hv : isValidUUID id with
    | false =>
        exact ⟨by simp [getCustomerInteractions, hv], by simp [getCustomerPurchases, hv]⟩
    | true =>
        exact ⟨by simp [getCustomerInteractions, hv, hn],
          by simp [getCustomerPurchases, hv, hn]⟩

theorem claim_C2_witness :
    getCustomer emptyState "00000000-0000-0000-0000-000000000000" =
      Result.Err (Message.NotFound
        ("Customer with id=" ++ "00000000-0000-0000-0000-000000000000" ++ " not found")) :=
  (claim_C2 emptyState "00000000-0000-0000-0000-000000000000").1 (by decide) (by decide)

/-- C2 counterexample: the id `"not-a-uuid"` is absent from the (empty)
customer store, yet `getCustomer` reports `InvalidPayload`, not `NotFound`,
refuting the claim for arbitrary absent input strings. -/
theorem claim_C2_cex :
    storeGet emptyState.customerStorage "not-a-uuid" = none ∧
    getCustomer emptyState "not-a-uuid" = Result.Err (Message.InvalidPayload "Invalid UUID") ∧
    isNotFound (getCustomer emptyState "not-a-uuid") = false := by
  refine ⟨rfl, ?_, ?_⟩ <;> decide

/-- C3: over reachable states, `updateCustomer` on a present id replaces the
stored record verbatim and a subsequent `getCustomer` returns exactly the
new record; on an absent id it returns `NotFound` and leaves the state
unchanged. -/
theorem claim_C3 (st : CRMState) (hre : Reachable st) (C : Customer) :
    (storeContainsKey st.customerStorage C.id = true →
      (updateCustomer st C).1 = Result.Ok C ∧
      storeGet (updateCustomer st C).2.customerStorage C.id = some C ∧
      getCustomer (updateCustomer st C).2 C.id = Result.Ok C) ∧
    (storeContainsKey st.customerStorage C.id = false →
      updateCustomer st C =
        (Result.Err (Message.NotFound ("Customer with id=" ++ C.id ++ " not found")), st)) := by
  constructor
  · intro hc
    obtain ⟨v, hget⟩ := storeContainsKey_exists hc
    have hval := (storeInv_get (reachable_inv hre).1 hget).2
    have h1 : (updateCustomer st C).1 = Result.Ok C := by
      simp [updateCustomer, hc]
    have h2 : (updateCustomer st C).2 =
        { st with customerStorage := (storeInsert st.customerStorage C.id C) } := by
      simp [updateCustomer, hc]
    refine ⟨h1, ?_, ?_⟩
    · rw [h2]
      exact storeGet_storeInsert_self _ _ _
    · rw [h2]
      simp [getCustomer, hval, storeGet_storeInsert_self]
  · intro hc
    simp [updateCustomer, hc]

theorem claim_C3_witness :
    (updateCustomer sampleState1 sampleCustomer2).1 = Result.Ok sampleCustomer2 :=
  ((claim_C3 sampleState1 sampleState1_reachable sampleCustomer2).1 (by decide)).1

/-- C4: over reachable states, deleting a present, format-valid customer id
returns that id, after which `getCustomer` reports `NotFound`, and a second
delete returns `NotFound` leaving the state unchanged. -/
theorem claim_C4 (st : CRMState) (hre : Reachable st) (id : String)
    (hv : isValidUUID id = true)
    (hc : storeContainsKey st.customerStorage id = true) :
    (deleteCustomer st id).1 = Result.Ok id ∧
    getCustomer (deleteCustomer st id).2 id =
      Result.Err (Message.NotFound ("Customer with id=" ++ id ++ " not found")) ∧
    deleteCustomer (deleteCustomer st id).2 id =
      (Result.Err (Message.NotFound ("Customer with id=" ++ id ++ " not found")),
        (deleteCustomer st id).2) := by
  obtain ⟨v, hget⟩ := storeContainsKey_exists hc
  have hvid := (storeInv_get (reachable_inv hre).1 hget).1
  have h1 : (deleteCustomer st id).1 = Result.Ok v.id := by
    simp [deleteCustomer, storeRemove, hv, hget]
  have h2 : (deleteCustomer st id).2 =
      { st with customerStorage := (st.customerStorage.filter (fun p => !(p.1 == id))) } := by
    simp [deleteCustomer, storeRemove, hv, hget]
  have hgone : storeGet (deleteCustomer st id).2.customerStorage id = none := by
    rw [h2]
    exact storeGet_filter_self _ _
  refine ⟨by rw [h1, hvid], ?_, ?_⟩
  · simp [getCustomer, hv, hgone]
  · exact deleteCustomer_absent hv hgone

theorem claim_C4_witness :
    (deleteCustomer sampleState1 sampleCustomerId).1 = Result.Ok sampleCustomerId :=
  (claim_C4 sampleState1 sampleState1_reachable sampleCustomerId (by decide) (by decide)).1

/-- C5: over reachable states, a successful `addInteraction` creates an
interaction with the freshly generated id and the payload's fields, which
both appears in `getCustomerInteractions` for that customer and is returned
by `getInteraction` from the standalone store. -/
theorem claim_C5 (st : CRMState) (hre : Reachable st) (customerId : String)
    (hash : List Nat) (payload : InteractionPayload)
    (hh : ValidHash hash) (hv : isValidUUID customerId = true)
    (hc : storeContainsKey st.customerStorage customerId = true) :
    ∃ i : Interaction,
      (addInteraction st customerId hash payload).1 = Result.Ok i.id ∧
      i.id = generateUUID hash ∧
      i.date = payload.date ∧
      i.interaction_type = payload.interaction_type ∧
      i.description = payload.description ∧
      i.status = payload.status ∧
      i.comments = payload.comments ∧
      i ∈ getCustomerInteractions (addInteraction st customerId hash payload).2 customerId ∧
      getInteraction (addInteraction st customerId hash payload).2 i.id = Result.Ok i := by
  obtain ⟨customer, hget⟩ := storeContainsKey_exists hc
  have hcid := (storeInv_get (reachable_inv hre).1 hget).1
  refine ⟨({ id := generateUUID hash, date := payload.date,
             interaction_type := payload.interaction_type,
             description := payload.description, status := payload.status,
             comments := payload.comments }), ?_, rfl, rfl, rfl, rfl, rfl, rfl, ?_, ?_⟩
  · simp [addInteraction, hv, hget, isValidPayloadInteraction_true]
  · have h2 : (addInteraction st customerId hash payload).2 =
        { st with
            customerStorage := (storeInsert st.customerStorage customer.id
              { customer with interactions := customer.interactions ++
                  [{ id := generateUUID hash, date := payload.date,
                     interaction_type := payload.interaction_type,
                     description := payload.description, status := payload.status,
                     comments := payload.comments }] }),
            interactionStorage := (storeInsert st.interactionStorage (generateUUID hash)
              { id := generateUUID hash, date := payload.date,
                interaction_type := payload.interaction_type,
                description := payload.description, status := payload.status,
                comments := payload.comments }) } := by
      simp [addInteraction, hv, hget, isValidPayloadInteraction_true]
    rw [h2]
    unfold getCustomerInteractions
    rw [hv]
    simp only [Bool.not_true, Bool.false_eq_true, if_false]
    rw [← hcid, storeGet_storeInsert_self]
    simp
  · have h2 : (addInteraction st customerId hash payload).2.interactionStorage =
        storeInsert st.interactionStorage (generateUUID hash)
          { id := generateUUID hash, date := payload.date,
            interaction_type := payload.interaction_type,
            description := payload.description, status := payload.status,
            comments := payload.comments } := by
      simp [addInteraction, hv, hget, isValidPayloadInteraction_true]
    unfold getInteraction
    rw [generateUUID_valid hh]
    simp only [Bool.not_true, Bool.false_eq_true, if_false]
    rw [h2, storeGet_storeInsert_self]

theorem claim_C5_witness :
    (addInteraction sampleState1 sampleCustomerId sampleHash2 sampleIPayload).1 =
      Result.Ok (generateUUID sampleHash2) := by
  obtain ⟨i, h1, h2, -, -, -, -, -, -, -⟩ :=
    claim_C5 sampleState1 sampleState1_reachable sampleCustomerId sampleHash2 sampleIPayload
      (by constructor <;> decide) (by decide) (by decide)
  rw [h1, h2]

/-- C6: `updateInteraction` writes only the standalone interaction store and
`updatePurchase` only the standalone purchase store: in both cases the
customer store (and hence every embedded copy, as observed through the
list-by-customer queries) is unchanged. -/
theorem claim_C6 (st : CRMState) (p : Interaction) (q : Purchase) :
    ((updateInteraction st p).2.customerStorage = st.customerStorage ∧
     (updateInteraction st p).2.purchaseStorage = st.purchaseStorage ∧
     ∀ customerId, getCustomerInteractions (updateInteraction st p).2 customerId =
       getCustomerInteractions st customerId) ∧
    ((updatePurchase st q).2.customerStorage = st.customerStorage ∧
     (updatePurchase st q).2.interactionStorage = st.interactionStorage ∧
     ∀ customerId, getCustomerPurchases (updatePurchase st q).2 customerId =
       getCustomerPurchases st customerId) := by
  have hi : (updateInteraction st p).2.customerStorage = st.customerStorage ∧
      (updateInteraction st p).2.purchaseStorage = st.purchaseStorage := by
    unfold updateInteraction
    split <;> exact ⟨rfl, rfl⟩
  have hq : (updatePurchase st q).2.customerStorage = st.customerStorage ∧
      (updatePurchase st q).2.interactionStorage = st.interactionStorage := by
    unfold updatePurchase
    split <;> exact ⟨rfl, rfl⟩
  refine ⟨⟨hi.1, hi.2, ?_⟩, ⟨hq.1, hq.2, ?_⟩⟩
  · intro customerId
    unfold getCustomerInteractions
    rw [hi.1]
  · intro customerId
    unfold getCustomerPurchases
    rw [hq.1]

/-- C7: the two list-by-customer queries never error: a malformed id or a
missing customer yields the empty sequence, and a present customer yields
its embedded list. -/
theorem claim_C7 (st : CRMState) (customerId : String) :
    (isValidUUID customerId = false →
      getCustomerInteractions st customerId = [] ∧
      getCustomerPurchases st customerId = []) ∧
    (storeGet st.customerStorage customerId = none →
      getCustomerInteractions st customerId = [] ∧
      getCustomerPurchases st customerId = []) ∧
    (∀ c, isValidUUID customerId = true → storeGet st.customerStorage customerId = some c →
      getCustomerInteractions st customerId = c.interactions ∧
      getCustomerPurchases st customerId = c.purchases) := by
  refine ⟨?_, ?_, ?_⟩
  · intro hv
    exact ⟨by simp [getCustomerInteractions, hv], by simp [getCustomerPurchases, hv]⟩
  · intro hn
    cases hv : isValidUUID customerId with
    | false =>
        exact ⟨by simp [getCustomerInteractions, hv], by simp [getCustomerPurchases, hv]⟩
    | true =>
        exact ⟨by simp [getCustomerInteractions, hv, hn],
          by simp [getCustomerPurchases, hv, hn]⟩
  · intro c hv hs
    exact ⟨by simp [getCustomerInteractions, hv, hs], by simp [getCustomerPurchases, hv, hs]⟩

theorem claim_C7_witness :
    getCustomerInteractions emptyState "bogus" = [] ∧
    getCustomerPurchases emptyState "bogus" = [] :=
  (claim_C7 emptyState "bogus").1 (by decide)

/-- C8: statuses (dates) equal up to ASCII case give identical
`filterByStatus` (`getPurchasesByDate`) results, and the result is exactly
the standalone records whose status (date) matches case-insensitively. -/
theorem claim_C8 (st : CRMState) (s1 s2 : String) (h : jsToLower s1 = jsToLower s2) :
    filterByStatus st s1 = filterByStatus st s2 ∧
    (∀ i, i ∈ filterByStatus st s1 ↔
      (i ∈ storeValues st.interactionStorage ∧ jsToLower i.status = jsToLower s1)) ∧
    getPurchasesByDate st s1 = getPurchasesByDate st s2 ∧
    (∀ p, p ∈ getPurchasesByDate st s1 ↔
      (p ∈ storeValues st.purchaseStorage ∧ jsToLower p.date = jsToLower s1)) := by
  refine ⟨?_, ?_, ?_, ?_⟩
  · unfold filterByStatus
    rw [h]
  · intro i
    unfold filterByStatus
    rw [List.mem_filter]
    simp
  · unfold getPurchasesByDate
    rw [h]
  · intro p
    unfold getPurchasesByDate
    rw [List.mem_filter]
    simp

theorem claim_C8_witness :
    filterByStatus sampleIState "Closed" = filterByStatus sampleIState "closed" :=
  (claim_C8 sampleIState "Closed" "closed" (by decide)).1

/-- C9: for every SHA-256 digest (hence for every timestamp and choice of
random bytes), `generateUUID` yields a 36-character token in the 8-4-4-4-12
layout whose third group starts with `4` and whose fourth group starts with
one of `8`, `9`, `a`, `b`, and the token is accepted by `isValidUUID`. -/
theorem claim_C9 (hash : List Nat) (h : ValidHash hash) :
    (generateUUID hash).length = 36 ∧
    isValidUUID (generateUUID hash) = true ∧
    ∃ g1 g2 g3 g4 g5 : List Char,
      (generateUUID hash).data = g1 ++ '-' :: (g2 ++ '-' :: (g3 ++ '-' :: (g4 ++ '-' :: g5))) ∧
      g1.length = 8 ∧ g2.length = 4 ∧ g3.length = 4 ∧ g4.length = 4 ∧ g5.length = 12 ∧
      g3.head? = some '4' ∧
      (∃ c, g4.head? = some c ∧ (c = '8' ∨ c = '9' ∨ c = 'a' ∨ c = 'b')) := by
  obtain ⟨g1, g2, g3, g4, g5, hdata, l1, l2, l3, l4, l5, -, -, -, -, -, h3, h4⟩ :=
    generateUUID_pieces hash h
  exact ⟨generateUUID_length h, generateUUID_valid h,
    g1, g2, g3, g4, g5, hdata, l1, l2, l3, l4, l5, h3, h4⟩

theorem claim_C9_witness : isValidUUID (generateUUID sampleHash) = true :=
  (claim_C9 sampleHash (by constructor <;> decide)).2.1

/-- C10: in every state reachable from the empty stores via the public
operations, every key of each of the three stores equals the `id` field of
the record stored under it. -/
theorem claim_C10 (st : CRMState) (h : Reachable st) : KeysMatch st := by
  obtain ⟨h1, h2, h3⟩ := reachable_inv h
  exact ⟨fun p hp => (h1 p hp).1, fun p hp => (h2 p hp).1, fun p hp => (h3 p hp).1⟩

theorem claim_C10_witness : KeysMatch sampleState1 :=
  claim_C10 sampleState1 sampleState1_reachable

end CRM
